import Mathlib

/-!
Verification of the t-rex tile-server core (cache backend, layer policy
derivation, metadata projection) against its specification.

The Rust sources embedded here are src/webserver/server.rs and
src/cache/filecache.rs. Machine strings are Lean String, byte blobs are
List Nat, and the filesystem is an explicit state record; filesystem paths
are modelled at the level of slash-separated components, following the
semantics of Rust std::path (empty segments dropped, a lone "." segment
dropped except at the start of a relative path, ".." kept as a component).
-/

namespace TRex

/-- Layer model (core/layer.rs fields used by server.rs): name, optional
geometry type string, optional simplify flag, optional query limit,
optional buffer size. -/
structure Layer where
  name : String
  geometry_type : Option String
  simplify : Option Bool
  query_limit : Option Nat
  buffer_size : Option Nat
  deriving Repr, DecidableEq

/-- Tileset: a named group of layers (service/mvt.rs). -/
structure Tileset where
  name : String
  layers : List Layer
  deriving Repr, DecidableEq

/-- TilesetInfo as produced for the web server index (server.rs). -/
structure TilesetInfo where
  name : String
  layerinfos : String
  hasviewer : Bool
  deriving Repr, DecidableEq

/-- The list of geometry type names accepted by TilesetInfo::from_tileset
(server.rs lines 75-80), verbatim, including the misspelled "MULTPOINT". -/
def viewerGeomTypes : List String :=
  ["POINT", "LINESTRING", "POLYGON", "MULTPOINT", "MULTILINESTRING", "MULTIPOLYGON"]

/-- One layer's contribution in TilesetInfo::from_tileset: the geometry type
with UNKNOWN as default (server.rs line 73). -/
def layerGeomType (l : Layer) : String :=
  l.geometry_type.getD "UNKNOWN"

/-- TilesetInfo::from_tileset (server.rs lines 68-90): hasviewer starts true
and is and-ed with membership of each layer's geometry type in
viewerGeomTypes; layerinfos joins "name [geomtype]" with ", ". -/
def TilesetInfo.from_tileset (set : Tileset) : TilesetInfo :=
  { name := set.name
  , layerinfos :=
      String.intercalate ", "
        (set.layers.map (fun l => l.name ++ " [" ++ layerGeomType l ++ "]"))
  , hasviewer :=
      set.layers.foldl (fun hv l => hv && viewerGeomTypes.contains (layerGeomType l)) true }

/-- The six OGC simple-feature type names named by the specification
(with MULTIPOINT spelled correctly). -/
def ogcGeomTypes : List String :=
  ["POINT", "LINESTRING", "POLYGON", "MULTIPOINT", "MULTILINESTRING", "MULTIPOLYGON"]

/-- Geometry types that get a clip buffer (server.rs line 196). -/
def bufferGeomTypes : List String :=
  ["LINESTRING", "MULTILINESTRING", "POLYGON", "MULTIPOLYGON"]

/-- The buffer_size assignment of service_from_args (server.rs lines
193-204): Some(1) when clipping is on and the geometry type is in
bufferGeomTypes, None otherwise (including an absent geometry type). -/
def deriveBufferSize (clip : Bool) (geometry_type : Option String) : Option Nat :=
  match geometry_type with
  | some geom => if clip && bufferGeomTypes.contains geom then some 1 else none
  | none => none

/-- The per-layer mutation of the auto-detection loop in service_from_args
(server.rs lines 188-204): set simplify to the flag, set query_limit to
Some(1000) only when simplify is true, then derive buffer_size. -/
def configureLayer (simplify clip : Bool) (l : Layer) : Layer :=
  let l1 : Layer := { l with simplify := some simplify }
  let l2 : Layer := if simplify then { l1 with query_limit := some 1000 } else l1
  { l2 with buffer_size := deriveBufferSize clip l2.geometry_type }

/-- The tileset construction of the auto-detection loop (server.rs lines
187-210): layers are popped from the detected list (hence reverse order)
and each becomes a single-layer tileset named after the layer. -/
def autoTilesets (simplify clip : Bool) (layers : List Layer) : List Tileset :=
  layers.reverse.map (fun l0 =>
    let l := configureLayer simplify clip l0
    { name := l.name, layers := [l] })

/-- Modelled from the spec: pg.detect_layers (datasource/postgis.rs) is
outside this slice. Per spec section 4.2 a freshly detected layer carries no
query limit, so the derivation starting from it yields query_limit = None
when simplify is false. -/
def DetectedLayer (l : Layer) : Prop :=
  l.query_limit = none

instance (l : Layer) : Decidable (DetectedLayer l) := by
  unfold DetectedLayer; infer_instance

/-- Rust str::parse for an unsigned integer type with maximum value max: an
optional leading plus sign followed by one or more ASCII digits whose value
fits; anything else is an error. -/
def parseUnsigned (max : Nat) (s : String) : Option Nat :=
  let ds := match s.data with
    | '+' :: rest => rest
    | other => other
  if ds = [] then none
  else if ds.all (fun c => c.isDigit) then
    let v := ds.foldl (fun acc c => acc * 10 + (c.toNat - 48)) 0
    if v ≤ max then some v else none
  else none

/-- The z/x/y parsing of the tile route handler (server.rs lines 332-334):
z as u8, x and y as u32. In the source each parse result is unwrapped
directly, so a None here means the handler panics, aborting the request,
instead of returning an error result. -/
def tileRouteParams (z x y : String) : Option (Nat × Nat × Nat) :=
  match parseUnsigned 255 z, parseUnsigned 4294967295 x, parseUnsigned 4294967295 y with
  | some zv, some xv, some yv => some (zv, xv, yv)
  | _, _, _ => none

/-! ## Path model

Paths are slash-separated character lists. rustComponents models the normal
components seen by Rust std::path (what Path::parent pops): empty segments
are dropped, a "." segment is dropped except as the first segment of a
relative path, ".." is kept as a component. -/

/-- Split a character list at every slash. -/
def splitSlash : List Char → List (List Char)
  | [] => [[]]
  | c :: rest =>
    if c = '/' then [] :: splitSlash rest
    else
      match splitSlash rest with
      | [] => [[c]]
      | g :: gs => (c :: g) :: gs

/-- The non-empty slash-separated segments of a path. -/
def rawSegs (cs : List Char) : List (List Char) :=
  (splitSlash cs).filter (fun s => s ≠ [])

/-- The normal components of a path in Rust std::path: "." segments are
dropped except when the path is relative and "." is its first segment;
Path::parent returns None exactly when this list is empty. -/
def rustComponents (cs : List Char) : List (List Char) :=
  if cs.head? = some '/' then
    (rawSegs cs).filter (fun s => s ≠ ['.'])
  else
    match rawSegs cs with
    | [] => []
    | s :: rest =>
      if s = ['.'] then s :: rest.filter (fun t => t ≠ ['.'])
      else (s :: rest).filter (fun t => t ≠ ['.'])

/-- The full path computed by every Filecache method (filecache.rs lines
20, 31 and 40): basepath ++ "/" ++ path, with no sanitization of either
part. -/
def fullpath (basepath path : String) : String :=
  basepath ++ "/" ++ path

/-- The component list of the location a Filecache call addresses. -/
def fullComps (basepath path : String) : List (List Char) :=
  rustComponents (fullpath basepath path).data

/-- Resolution of a path by the operating system: "." is a no-op, ".."
removes the previous segment, any other segment is appended. Relative
paths resolve against the working directory, taken as the empty origin. -/
def resolveStep (acc : List (List Char)) (seg : List Char) : List (List Char) :=
  if seg = ['.'] then acc
  else if seg = ['.', '.'] then acc.dropLast
  else acc ++ [seg]

/-- The location a path string finally denotes. -/
def resolvePath (s : String) : List (List Char) :=
  (rawSegs s.data).foldl resolveStep []

/-- A path stays under the backend root when the root's resolved segments
are a prefix of its resolved segments. -/
def underRoot (basepath full : String) : Bool :=
  (resolvePath basepath).isPrefixOf (resolvePath full)

/-! ## Filesystem model

An explicit filesystem state: regular files keyed by component list with
their byte contents, plus a set of directories. -/

/-- Filesystem state: files with contents, and directories. -/
structure FS where
  files : List (List (List Char) × List Nat)
  dirs : List (List (List Char))
  deriving Repr, DecidableEq

/-- The contents of the regular file at a path, when present. -/
def lookupFile (fs : FS) (p : List (List Char)) : Option (List Nat) :=
  (fs.files.find? (fun e => e.1 = p)).map (fun e => e.2)

/-- Whether a directory is present at a path. -/
def isDir (fs : FS) (p : List (List Char)) : Bool :=
  fs.dirs.contains p

/-- fs::create_dir_all: creates the directory and every missing ancestor;
fails with an I/O error when the path or one of its ancestors already
exists as a regular file. create_dir_all on the empty path succeeds. -/
def createDirAll (fs : FS) (d : List (List Char)) : Option FS :=
  if d.inits.any (fun q => (lookupFile fs q).isSome) then none
  else some { fs with dirs := d.inits ++ fs.dirs }

/-- File::create: truncating create of a regular file; fails with an I/O
error when the path is an existing directory or ends in a "." or ".."
component, where no regular file can be created. -/
def fileCreate (fs : FS) (p : List (List Char)) (bytes : List Nat) : Option FS :=
  if isDir fs p || p.getLast? = some ['.'] || p.getLast? = some ['.', '.'] then none
  else some { fs with files := (p, bytes) :: fs.files.filter (fun e => e.1 ≠ p) }

/-- Outcome of Filecache::read: the returned boolean together with the list
of byte blobs the consumer closure was invoked on. -/
structure ReadOutcome where
  returned : Bool
  consumerCalls : List (List Nat)
  deriving Repr, DecidableEq

namespace Filecache

/-- Filecache::read (filecache.rs lines 17-29): open the full path; on
success invoke the consumer on the file contents and return true; on an
open error return false without invoking the consumer. File::open succeeds
exactly when a regular file is present at the path. -/
def read (fs : FS) (basepath path : String) : ReadOutcome :=
  match lookupFile fs (fullComps basepath path) with
  | some bytes => { returned := true, consumerCalls := [bytes] }
  | none => { returned := false, consumerCalls := [] }

/-- Filecache::exists (filecache.rs lines 39-42): Path::new(fullpath)
.exists(), true when a file or a directory is present at the path. -/
def pathExists (fs : FS) (basepath path : String) : Bool :=
  (lookupFile fs (fullComps basepath path)).isSome || isDir fs (fullComps basepath path)

/-- Result of Filecache::write: ok and err mirror Result of unit and
io::Error, each carrying the filesystem afterwards (directories created
before a later failure stay created); panicked records that
parent().unwrap() aborted. -/
inductive WriteResult where
  | panicked : WriteResult
  | err : FS → WriteResult
  | ok : FS → WriteResult
  deriving Repr, DecidableEq

/-- Filecache::write (filecache.rs lines 30-37): compute the full path,
take its parent via Path::parent unwrapped (a panic when the component list
is empty), create_dir_all the parent, File::create the full path and write
all bytes; the two fallible steps propagate their errors. -/
def write (fs : FS) (basepath path : String) (obj : List Nat) : WriteResult :=
  let comps := fullComps basepath path
  if comps = [] then .panicked
  else
    match createDirAll fs comps.dropLast with
    | none => .err fs
    | some fs1 =>
      match fileCreate fs1 comps obj with
      | none => .err fs1
      | some fs2 => .ok fs2

end Filecache

/-- A character that survives path normalization inside a segment: neither
the separator nor a dot. -/
def isRealChar (c : Char) : Bool :=
  c ≠ '/' && c ≠ '.'

/-- A concrete detected layer used to instantiate the startup-path
theorems. -/
def polyLayer : Layer :=
  { name := "ply", geometry_type := some "POLYGON"
  , simplify := none, query_limit := none, buffer_size := none }

/-! ## Helper lemmas -/

theorem configureLayer_geometry_type (s c : Bool) (l : Layer) :
    (configureLayer s c l).geometry_type = l.geometry_type := by
  cases s <;> simp [configureLayer]

theorem configureLayer_name (s c : Bool) (l : Layer) :
    (configureLayer s c l).name = l.name := by
  cases s <;> simp [configureLayer]

theorem configureLayer_simplify (s c : Bool) (l : Layer) :
    (configureLayer s c l).simplify = some s := by
  cases s <;> simp [configureLayer]

theorem configureLayer_buffer_size (s c : Bool) (l : Layer) :
    (configureLayer s c l).buffer_size = deriveBufferSize c l.geometry_type := by
  cases s <;> simp [configureLayer]

theorem configureLayer_query_limit (s c : Bool) (l : Layer) (h : l.query_limit = none) :
    (configureLayer s c l).query_limit = (if s then some 1000 else none) := by
  cases s <;> simp [configureLayer, h]

theorem mem_autoTilesets (s c : Bool) (layers : List Layer) (ts : Tileset)
    (hts : ts ∈ autoTilesets s c layers) :
    ∃ l0 ∈ layers,
      ts = { name := (configureLayer s c l0).name, layers := [configureLayer s c l0] } := by
  unfold autoTilesets at hts
  obtain ⟨l0, hl0, hts⟩ := List.mem_map.mp hts
  exact ⟨l0, List.mem_reverse.mp hl0, hts.symm⟩

/-! ## Claim theorems: metadata projection and layer policy -/

/-- Claim C1, code-bug evaluation: the specification requires the derived
has-a-generic-viewer flag to be true when every layer's geometry type is
one of the six OGC simple-feature types, MULTIPOINT among them; the source
list misspells it as MULTPOINT, so a tileset whose single layer has
geometry type MULTIPOINT gets hasviewer = false. -/
theorem from_tileset_multipoint_no_viewer :
    (TilesetInfo.from_tileset
      { name := "points"
      , layers := [{ name := "p", geometry_type := some "MULTIPOINT"
                   , simplify := none, query_limit := none, buffer_size := none }] }).hasviewer
      = false := by
  decide

/-- Claim C3, code-bug evaluation: on a tile request whose z parameter does
not parse as a u8, the parse in the handler fails, and since the source
unwraps the result directly the handler panics instead of returning an
explicit error result. -/
theorem tile_route_malformed_z_panics :
    tileRouteParams "abc" "0" "0" = none := by
  decide

/-- Claim C5: for every layer produced by the service-construction path,
buffer_size is Some 1 exactly when clipping is enabled and the geometry
type is LINESTRING, MULTILINESTRING, POLYGON or MULTIPOLYGON, and in every
other case (point-like, absent geometry type, or clipping disabled)
buffer_size is None. -/
theorem buffer_size_iff (s c : Bool) (layers : List Layer) (ts : Tileset) (l : Layer)
    (hts : ts ∈ autoTilesets s c layers) (hl : l ∈ ts.layers) :
    (l.buffer_size = some 1 ↔
      (c = true ∧ ∃ g, l.geometry_type = some g ∧ g ∈ bufferGeomTypes)) ∧
    (l.buffer_size = some 1 ∨ l.buffer_size = none) := by
  obtain ⟨l0, _, rfl⟩ := mem_autoTilesets s c layers ts hts
  have hl' : l = configureLayer s c l0 := by simpa using hl
  subst hl'
  rw [configureLayer_buffer_size, configureLayer_geometry_type]
  cases hg : l0.geometry_type with
  | none => simp [deriveBufferSize]
  | some g =>
    by_cases hmem : g ∈ bufferGeomTypes
    · cases c <;> simp [deriveBufferSize, hmem]
    · cases c <;> simp [deriveBufferSize, hmem]

/-- Claim C5 witness: a POLYGON layer with clipping enabled gets
buffer_size Some 1. -/
theorem buffer_size_iff_witness :
    (configureLayer true true polyLayer).buffer_size = some 1 :=
  ((buffer_size_iff true true [polyLayer]
      { name := (configureLayer true true polyLayer).name
      , layers := [configureLayer true true polyLayer] }
      (configureLayer true true polyLayer)
      (by decide) (by decide)).1).mpr ⟨rfl, "POLYGON", rfl, by decide⟩

/-- Claim C6: in the per-layer policy derivation of the auto-detection
path, starting from detected layers (which carry no query limit), the
simplify field carries the declared flag, query_limit is Some 1000 when
simplify is true, and query_limit is None when simplify is false. -/
theorem simplify_query_limit (s c : Bool) (layers : List Layer)
    (hdet : ∀ l0 ∈ layers, DetectedLayer l0)
    (ts : Tileset) (l : Layer) (hts : ts ∈ autoTilesets s c layers) (hl : l ∈ ts.layers) :
    l.simplify = some s ∧ l.query_limit = (if s then some 1000 else none) := by
  obtain ⟨l0, hl0, rfl⟩ := mem_autoTilesets s c layers ts hts
  have hl' : l = configureLayer s c l0 := by simpa using hl
  subst hl'
  exact ⟨configureLayer_simplify s c l0,
    configureLayer_query_limit s c l0 (hdet l0 hl0)⟩

/-- Claim C6 witness: with simplify off and clipping on, the derived layer
keeps simplify = false and no query limit. -/
theorem simplify_query_limit_witness :
    (configureLayer false true polyLayer).simplify = some false ∧
    (configureLayer false true polyLayer).query_limit = none := by
  have h := simplify_query_limit false true [polyLayer] (by decide)
    { name := (configureLayer false true polyLayer).name
    , layers := [configureLayer false true polyLayer] }
    (configureLayer false true polyLayer) (by decide) (by decide)
  simpa using h

/-- Claim C9: in the auto-detection construction path every resulting
tileset contains exactly one layer, and the tileset's name equals that
layer's name. -/
theorem auto_single_layer (s c : Bool) (layers : List Layer) (ts : Tileset)
    (hts : ts ∈ autoTilesets s c layers) :
    ts.layers.length = 1 ∧ ∀ l ∈ ts.layers, ts.name = l.name := by
  obtain ⟨l0, _, rfl⟩ := mem_autoTilesets s c layers ts hts
  refine ⟨rfl, ?_⟩
  intro l hl
  have hl' : l = configureLayer s c l0 := by simpa using hl
  subst hl'
  rfl

/-- Claim C9 witness: the tileset detected for one polygon layer has one
layer and is named after it. -/
theorem auto_single_layer_witness :
    ({ name := (configureLayer false false polyLayer).name
     , layers := [configureLayer false false polyLayer] } : Tileset).layers.length = 1 :=
  (auto_single_layer false false [polyLayer]
    { name := (configureLayer false false polyLayer).name
    , layers := [configureLayer false false polyLayer] } (by decide)).1

/-! ## Claim theorems: filesystem cache backend -/

theorem lookupFile_insert (fs : FS) (p : List (List Char)) (b : List Nat) :
    lookupFile { fs with files := (p, b) :: fs.files.filter (fun e => e.1 ≠ p) } p
      = some b := by
  simp [lookupFile]

theorem fileCreate_some (fs fs2 : FS) (p : List (List Char)) (b : List Nat)
    (h : fileCreate fs p b = some fs2) :
    fs2 = { fs with files := (p, b) :: fs.files.filter (fun e => e.1 ≠ p) } := by
  unfold fileCreate at h
  split at h
  · exact absurd h (by simp)
  · exact (Option.some_inj.mp h).symm

theorem createDirAll_some (fs fs1 : FS) (d : List (List Char))
    (h : createDirAll fs d = some fs1) :
    fs1 = { fs with dirs := d.inits ++ fs.dirs } := by
  unfold createDirAll at h
  split at h
  · exact absurd h (by simp)
  · exact (Option.some_inj.mp h).symm

/-- Claim C4: after a Filecache write of bytes b at key k returns Ok, a
read of the same key invokes the consumer once with exactly b and returns
true, and exists of the same key returns true. -/
theorem write_read_roundtrip (fs : FS) (bp k : String) (b : List Nat) (fs' : FS)
    (h : Filecache.write fs bp k b = .ok fs') :
    Filecache.read fs' bp k = { returned := true, consumerCalls := [b] } ∧
    Filecache.pathExists fs' bp k = true := by
  simp only [Filecache.write] at h
  split at h
  · simp at h
  · split at h
    · simp at h
    · split at h
      · simp at h
      · rename_i _ fs1 hd _ fs2 hf
        have hfs : fs2 = fs' := by simpa using h
        subst hfs
        have hlook : lookupFile fs2 (fullComps bp k) = some b := by
          rw [fileCreate_some fs1 fs2 (fullComps bp k) b hf]
          exact lookupFile_insert fs1 (fullComps bp k) b
        constructor
        · unfold Filecache.read
          rw [hlook]
        · unfold Filecache.pathExists
          rw [hlook]
          simp

/-- Claim C4 witness: writing [1, 2, 3] under key t/3.pbf on an empty
filesystem, then reading it back, yields exactly [1, 2, 3]. -/
theorem write_read_roundtrip_witness :
    Filecache.read
      (FS.mk [([['b', 'a', 's', 'e'], ['t'], ['3', '.', 'p', 'b', 'f']], [1, 2, 3])]
        [[], [['b', 'a', 's', 'e']], [['b', 'a', 's', 'e'], ['t']]])
      "base" "t/3.pbf"
      = { returned := true, consumerCalls := [[1, 2, 3]] } :=
  (write_read_roundtrip ⟨[], []⟩ "base" "t/3.pbf" [1, 2, 3]
    (FS.mk [([['b', 'a', 's', 'e'], ['t'], ['3', '.', 'p', 'b', 'f']], [1, 2, 3])]
      [[], [['b', 'a', 's', 'e']], [['b', 'a', 's', 'e'], ['t']]])
    (by decide)).1

/-- Claim C7: Filecache read returns true exactly when it invoked the
consumer, which happens exactly when the file at basepath/key can be
opened; on open failure the consumer is never invoked; on success the
consumer sees the full stored blob. -/
theorem read_consumer_iff (fs : FS) (bp k : String) :
    ((Filecache.read fs bp k).returned = true ↔
      (Filecache.read fs bp k).consumerCalls ≠ []) ∧
    ((Filecache.read fs bp k).returned = true ↔
      (lookupFile fs (fullComps bp k)).isSome = true) ∧
    (∀ b, lookupFile fs (fullComps bp k) = some b →
      (Filecache.read fs bp k).consumerCalls = [b]) := by
  unfold Filecache.read
  cases h : lookupFile fs (fullComps bp k) <;> simp [h]

/-- Claim C7 witness: on a filesystem holding bytes [7] at the key, read
invokes the consumer with exactly [7]. -/
theorem read_consumer_iff_witness :
    (Filecache.read (FS.mk [([['k']], [7])] []) "" "k").consumerCalls = [[7]] :=
  (read_consumer_iff (FS.mk [([['k']], [7])] []) "" "k").2.2 [7] (by decide)

/-- Claim C8: when Filecache write returns Ok, every intermediate directory
implied by the key has been created and the full byte sequence is persisted
at the full path; and when directory creation or file creation fails, the
call returns Err (with the filesystem as left by the steps already run)
rather than succeeding. -/
theorem write_creates_dirs (fs : FS) (bp k : String) (b : List Nat) :
    (∀ fs', Filecache.write fs bp k b = .ok fs' →
      (∀ q ∈ (fullComps bp k).dropLast.inits, q ∈ fs'.dirs) ∧
      lookupFile fs' (fullComps bp k) = some b) ∧
    (∀ c0 cs, fullComps bp k = c0 :: cs →
      (createDirAll fs (c0 :: cs).dropLast = none →
        Filecache.write fs bp k b = .err fs) ∧
      (∀ fs1, createDirAll fs (c0 :: cs).dropLast = some fs1 →
        fileCreate fs1 (c0 :: cs) b = none →
        Filecache.write fs bp k b = .err fs1)) := by
  constructor
  · intro fs' h
    simp only [Filecache.write] at h
    split at h
    · simp at h
    · split at h
      · simp at h
      · split at h
        · simp at h
        · rename_i _ fs1 hd _ fs2 hf
          have hfs : fs2 = fs' := by simpa using h
          subst hfs
          have hfe := fileCreate_some fs1 fs2 (fullComps bp k) b hf
          have hde := createDirAll_some fs fs1 (fullComps bp k).dropLast hd
          constructor
          · intro q hq
            have h1 : fs2.dirs = fs1.dirs := by rw [hfe]
            have h2 : fs1.dirs = (fullComps bp k).dropLast.inits ++ fs.dirs := by rw [hde]
            rw [h1, h2]
            exact List.mem_append_left _ hq
          · rw [hfe]
            exact lookupFile_insert fs1 (fullComps bp k) b
  · intro c0 cs hc
    constructor
    · intro hd
      simp only [Filecache.write]
      rw [hc, if_neg (List.cons_ne_nil c0 cs)]
      simp [hd]
    · intro fs1 hd hf
      simp only [Filecache.write]
      rw [hc, if_neg (List.cons_ne_nil c0 cs)]
      simp [hd, hf]

/-! ## Character-level path lemmas -/

theorem splitSlash_ne_nil (cs : List Char) : splitSlash cs ≠ [] := by
  cases cs with
  | nil => simp [splitSlash]
  | cons c rest =>
    by_cases hc : c = '/'
    · simp [splitSlash, hc]
    · rcases hsp : splitSlash rest with _ | ⟨g, gs⟩ <;> simp [splitSlash, hc, hsp]

theorem exists_seg_mem (c : Char) (hc : c ≠ '/') (cs : List Char) (h : c ∈ cs) :
    ∃ s ∈ splitSlash cs, c ∈ s := by
  induction cs with
  | nil => simp at h
  | cons d rest ih =>
    by_cases hd : d = '/'
    · have hcr : c ∈ rest := by
        rcases List.mem_cons.mp h with he | hr
        · exact absurd (he.trans hd) hc
        · exact hr
      obtain ⟨s, hs, hcs⟩ := ih hcr
      refine ⟨s, ?_, hcs⟩
      simp [splitSlash, hd]
      right
      exact hs
    · rcases hsp : splitSlash rest with _ | ⟨g, gs⟩
      · exact absurd hsp (splitSlash_ne_nil rest)
      · have heq : splitSlash (d :: rest) = (d :: g) :: gs := by
          simp [splitSlash, hd, hsp]
        rcases List.mem_cons.mp h with he | hr
        · exact ⟨d :: g, by simp [heq], by simp [he]⟩
        · obtain ⟨s, hs, hcs⟩ := ih hr
          rw [hsp] at hs
          rcases List.mem_cons.mp hs with hsg | hsgs
          · rw [hsg] at hcs
            exact ⟨d :: g, by simp [heq], List.mem_cons_of_mem d hcs⟩
          · exact ⟨s, by rw [heq]; exact List.mem_cons_of_mem _ hsgs, hcs⟩

theorem rustComponents_ne_nil_of_seg (cs s : List Char)
    (hs : s ∈ rawSegs cs) (hdot : s ≠ ['.']) : rustComponents cs ≠ [] := by
  by_cases habs : cs.head? = some '/'
  · simp only [rustComponents, habs, if_pos]
    exact List.ne_nil_of_mem (List.mem_filter.mpr ⟨hs, by simpa using hdot⟩)
  · rcases hraw : rawSegs cs with _ | ⟨s0, rest⟩
    · rw [hraw] at hs; simp at hs
    · by_cases hs0 : s0 = ['.']
      · simp [rustComponents, habs, hraw, hs0]
      · simp only [rustComponents, habs, if_neg, hraw, hs0, ite_false]
        intro hnil
        have hmm : s0 ∈ (s0 :: rest).filter (fun t => t ≠ ['.']) :=
          List.mem_filter.mpr ⟨List.mem_cons_self s0 rest, by simpa using hs0⟩
        rw [hnil] at hmm
        simp at hmm

theorem rustComponents_ne_nil (cs : List Char) (c : Char)
    (h1 : c ≠ '/') (h2 : c ≠ '.') (hm : c ∈ cs) : rustComponents cs ≠ [] := by
  obtain ⟨s, hs, hcs⟩ := exists_seg_mem c h1 cs hm
  have hne : s ≠ [] := List.ne_nil_of_mem hcs
  have hdot : s ≠ ['.'] := by
    intro he
    rw [he] at hcs
    simp at hcs
    exact h2 hcs
  have hraw : s ∈ rawSegs cs := List.mem_filter.mpr ⟨hs, by simpa using hne⟩
  exact rustComponents_ne_nil_of_seg cs s hraw hdot

theorem splitSlash_noSlash (xs : List Char) (h : ∀ c ∈ xs, c ≠ '/') :
    splitSlash xs = [xs] := by
  induction xs with
  | nil => simp [splitSlash]
  | cons c rest ih =>
    have hc : ¬ c = '/' := h c (List.mem_cons_self c rest)
    have hr := ih (fun d hd => h d (List.mem_cons_of_mem c hd))
    simp [splitSlash, hc, hr]

theorem splitSlash_append (xs ys : List Char) (h : ∀ c ∈ xs, c ≠ '/') :
    splitSlash (xs ++ '/' :: ys) = xs :: splitSlash ys := by
  induction xs with
  | nil => simp [splitSlash]
  | cons c rest ih =>
    have hc : ¬ c = '/' := h c (List.mem_cons_self c rest)
    have hr := ih (fun d hd => h d (List.mem_cons_of_mem c hd))
    simp [splitSlash, hc, hr]

/-- Claim C8 witness: writing under key t/3.pbf on an empty filesystem
creates the base and base/t directories and stores the bytes. -/
theorem write_creates_dirs_witness :
    lookupFile
      (FS.mk [([['b', 'a', 's', 'e'], ['t'], ['3', '.', 'p', 'b', 'f']], [1, 2, 3])]
        [[], [['b', 'a', 's', 'e']], [['b', 'a', 's', 'e'], ['t']]])
      (fullComps "base" "t/3.pbf") = some [1, 2, 3] :=
  ((write_creates_dirs ⟨[], []⟩ "base" "t/3.pbf" [1, 2, 3]).1
    (FS.mk [([['b', 'a', 's', 'e'], ['t'], ['3', '.', 'p', 'b', 'f']], [1, 2, 3])]
      [[], [['b', 'a', 's', 'e']], [['b', 'a', 's', 'e'], ['t']]])
    (by decide)).2

/-- Claim C10 counterexample: with empty basepath and empty key the full
path is the single slash, whose parent is None, so the unwrap in
Filecache::write aborts — refuting the claim for the combination of empty
basepath and empty key that it explicitly includes. -/
theorem write_empty_panicked :
    Filecache.write ⟨[], []⟩ "" "" [] = Filecache.WriteResult.panicked := by
  decide

/-- Claim C10, amended: Filecache::write cannot abort at the parent unwrap
whenever the computed full path basepath ++ "/" ++ key contains at least
one character that is neither a slash nor a dot; when basepath and key
consist only of slashes and dot segments (for example both empty), the
path can terminate in the root, Path::parent is None, and the unwrap
aborts. -/
theorem write_no_panic (bp k : String) (fs : FS) (b : List Nat)
    (h : (fullpath bp k).data.any isRealChar = true) :
    Filecache.write fs bp k b ≠ Filecache.WriteResult.panicked := by
  obtain ⟨c, hcm, hcr⟩ := List.any_eq_true.mp h
  have hsplit : c ≠ '/' ∧ c ≠ '.' := by simpa [isRealChar] using hcr
  have hcomps : fullComps bp k ≠ [] :=
    rustComponents_ne_nil (fullpath bp k).data c hsplit.1 hsplit.2 hcm
  simp only [Filecache.write]
  rw [if_neg hcomps]
  cases hd : createDirAll fs (fullComps bp k).dropLast with
  | none => simp
  | some fs1 =>
    cases hf : fileCreate fs1 (fullComps bp k) b with
    | none => simp [hf]
    | some fs2 => simp [hf]

/-- Claim C10 witness: with basepath "a" and key "b" the full path holds a
real character and write cannot abort at the parent unwrap. -/
theorem write_no_panic_witness :
    (fullpath "a" "b").data.any isRealChar = true ∧
    Filecache.write ⟨[], []⟩ "a" "b" [] ≠ Filecache.WriteResult.panicked :=
  ⟨by decide, write_no_panic "a" "b" ⟨[], []⟩ [] (by decide)⟩

/-- Claim C2 counterexample: for base directory "cache" and the
path-traversal key "../secret", the full path that read, write and exists
all compute resolves to a location outside the backend root — nothing
rejects or sanitizes the key. -/
theorem traversal_counterexample :
    underRoot "cache" (fullpath "cache" "../secret") = false := by
  decide

/-- Claim C2, amended: the Filecache operations compute the full path as
basepath ++ "/" ++ key with no rejection or sanitization, so a key
containing a ".." segment escapes the base directory: for every slash-free
base directory name and every distinct slash-free plain file name, the key
"../" ++ name resolves outside the root. -/
theorem traversal_escapes (b n : String)
    (hb0 : ∀ c ∈ b.data, c ≠ '/') (hb1 : b.data ≠ []) (hb2 : b.data ≠ ['.'])
    (hb3 : b.data ≠ ['.', '.'])
    (hn0 : ∀ c ∈ n.data, c ≠ '/') (hn1 : n.data ≠ []) (hn2 : n.data ≠ ['.'])
    (hn3 : n.data ≠ ['.', '.'])
    (hbn : b.data ≠ n.data) :
    underRoot b (fullpath b ("../" ++ n)) = false := by
  have hdata : (fullpath b ("../" ++ n)).data
      = b.data ++ '/' :: ('.' :: '.' :: '/' :: n.data) := by
    show (b.data ++ ['/']) ++ (['.', '.', '/'] ++ n.data)
        = b.data ++ '/' :: ('.' :: '.' :: '/' :: n.data)
    simp
  have hsp : splitSlash (fullpath b ("../" ++ n)).data
      = [b.data, ['.', '.'], n.data] := by
    rw [hdata, splitSlash_append b.data _ hb0]
    have h2 : ('.' :: '.' :: '/' :: n.data) = ['.', '.'] ++ '/' :: n.data := rfl
    rw [h2, splitSlash_append ['.', '.'] n.data (by decide), splitSlash_noSlash n.data hn0]
  have hraw : rawSegs (fullpath b ("../" ++ n)).data = [b.data, ['.', '.'], n.data] := by
    rw [rawSegs, hsp]
    simp [hb1, hn1]
  have e1 : resolveStep [] b.data = [b.data] := by
    simp [resolveStep, hb2, hb3]
  have e2 : resolveStep [b.data] ['.', '.'] = [] := by
    simp [resolveStep]
  have e3 : resolveStep [] n.data = [n.data] := by
    simp [resolveStep, hn2, hn3]
  have hres : resolvePath (fullpath b ("../" ++ n)) = [n.data] := by
    rw [resolvePath, hraw, List.foldl_cons, e1, List.foldl_cons, e2,
      List.foldl_cons, e3, List.foldl_nil]
  have hresb : resolvePath b = [b.data] := by
    rw [resolvePath, rawSegs, splitSlash_noSlash b.data hb0]
    simp [hb1, e1]
  rw [underRoot, hresb, hres]
  simp [List.isPrefixOf, hbn]

/-- Claim C2 witness for the amended statement: key "../evil" under base
directory "base" resolves outside the root. -/
theorem traversal_escapes_witness :
    underRoot "base" (fullpath "base" "../evil") = false :=
  traversal_escapes "base" "evil" (by decide) (by decide) (by decide) (by decide)
    (by decide) (by decide) (by decide) (by decide) (by decide)

end TRex
